import Mathlib

/-!
Verification of the closed-loop processing core of the Cleo repository
(file cleosim/processing/base.py): the ProcessingBlock latency wrapper and
the LatencyIOProcessor sampling/buffering scheduler.

Times are modelled as rationals.  Python exceptions are modelled with an
explicit error type; a method that can raise returns an Except value (or
a pair carrying the unchanged state, for put_state, whose mutations all
happen after the point where the user callback can raise).
-/

/-- Python exceptions that the modelled code can raise. -/
inductive PyError where
  | typeError
  | valueError
  | attributeError
  | zeroDivisionError
  | userError
deriving DecidableEq

/-- Default absolute tolerance of numpy.isclose. -/
def np_atol : ℚ := 1 / 100000000

/-- Default relative tolerance of numpy.isclose. -/
def np_rtol : ℚ := 1 / 100000

/-- numpy.isclose(a, b) with default tolerances: |a - b| <= atol + rtol * |b|. -/
def npIsClose (a b : ℚ) : Bool :=
  decide (|a - b| ≤ np_atol + np_rtol * |b|)

/-- Python modulo on rationals: a % b = a - b * floor(a / b).
For b > 0 the result lies in [0, b), as for Python floats. -/
def pymod (a b : ℚ) : ℚ :=
  a - b * ((Int.floor (a / b) : ℤ) : ℚ)

/-- A Delay object (cleosim.processing.delays.Delay); its compute() method
returns a duration.  One call is modelled by the stored value. -/
structure Delay where
  compute : ℚ
deriving DecidableEq

/-- ProcessingBlock state: the delay object, the save_history switch, and the
three history lists t, out_t, values (attribute names as in the source). -/
structure ProcessingBlock (α β : Type) where
  delay : Option Delay
  save_history : Bool
  t : List ℚ
  out_t : List ℚ
  values : List β

/-- ProcessingBlock.__init__: stores the delay kwarg and raises TypeError
when it is not a Delay object (in particular when it is absent/None);
history lists start empty. -/
def ProcessingBlock.init (α β : Type) (delay : Option Delay) (save_history : Bool) :
    Except PyError (ProcessingBlock α β) :=
  match delay with
  | none => .error .typeError
  | some d => .ok ⟨some d, save_history, [], [], []⟩

/-- ProcessingBlock.process: runs the user's _process implementation, adds the
delay to the input time (or passes it through when delay is None), and when
save_history is set appends in time, out time and output to the three logs.
Returns (output, out time, updated block). -/
def ProcessingBlock.process {α β : Type} (b : ProcessingBlock α β)
    (procImpl : α → β) (input : α) (in_time_ms : ℚ) :
    β × ℚ × ProcessingBlock α β :=
  let out := procImpl input
  let out_time_ms :=
    match b.delay with
    | some d => in_time_ms + d.compute
    | none => in_time_ms
  if b.save_history then
    (out, out_time_ms,
      { b with
        t := b.t ++ [in_time_ms]
        out_t := b.out_t ++ [out_time_ms]
        values := b.values ++ [out] })
  else
    (out, out_time_ms, b)

/-- Iterate ProcessingBlock.process over a list of (input, input time) pairs,
keeping the evolving block state. -/
def processN {α β : Type} (procImpl : α → β) (b : ProcessingBlock α β) :
    List (α × ℚ) → ProcessingBlock α β
  | [] => b
  | (i, tm) :: rest => processN procImpl ((b.process procImpl i tm).2.2) rest

/-- LatencyIOProcessor state: FIFO output buffer of (output, output time)
pairs, the sample period, the sampling and processing policy strings, and the
_needs_off_schedule_sample flag.  The flag is an Option: none models the
attribute not existing yet (it is not set by the constructor). -/
structure LatencyIOProcessor (O : Type) where
  out_buffer : List (O × ℚ)
  sample_period_ms : ℚ
  sampling : String
  processing : String
  needs_off_schedule_sample : Option Bool

/-- LatencyIOProcessor.__init__: empty buffer, period stored unchecked,
sampling must be "fixed" or "when idle" and processing must be "serial" or
"parallel" (ValueError otherwise); the missed-sample flag is never set. -/
def LatencyIOProcessor.init (O : Type) (sample_period_ms : ℚ)
    (sampling processing : String) :
    Except PyError (LatencyIOProcessor O) :=
  if sampling ≠ "fixed" ∧ sampling ≠ "when idle" then
    .error .valueError
  else if processing ≠ "serial" ∧ processing ≠ "parallel" then
    .error .valueError
  else
    .ok ⟨[], sample_period_ms, sampling, processing, none⟩

/-- LatencyIOProcessor.put_state: runs the user's process implementation
(modelled by procFn, which may raise) on the state and sample time; under
"serial" processing with a non-empty buffer the output time is re-based onto
the last buffered output time; appends the entry and clears the missed-sample
flag.  If procFn raises, the exception is returned with the state unchanged
(all mutations in the source happen after the process call). -/
def LatencyIOProcessor.put_state {O σ : Type} (p : LatencyIOProcessor O)
    (procFn : σ → ℚ → Except PyError (O × ℚ)) (state_dict : σ)
    (sample_time_ms : ℚ) :
    Except PyError Unit × LatencyIOProcessor O :=
  match procFn state_dict sample_time_ms with
  | .error e => (.error e, p)
  | .ok (out, out_time_ms) =>
    let eff_out_time_ms :=
      if p.processing = "serial" then
        match p.out_buffer.getLast? with
        | some prev => prev.2 + out_time_ms - sample_time_ms
        | none => out_time_ms
      else out_time_ms
    (.ok (),
      { p with
        out_buffer := p.out_buffer ++ [(out, eff_out_time_ms)]
        needs_off_schedule_sample := some false })

/-- LatencyIOProcessor.get_ctrl_signal: returns None on an empty buffer;
otherwise peeks the head and, when the query time has reached its output
time, pops and returns it; otherwise returns None and changes nothing. -/
def LatencyIOProcessor.get_ctrl_signal {O : Type} (p : LatencyIOProcessor O)
    (query_time_ms : ℚ) : Option O × LatencyIOProcessor O :=
  match p.out_buffer with
  | [] => (none, p)
  | (next_out_signal, next_out_time_ms) :: rest =>
    if next_out_time_ms ≤ query_time_ms then
      (some next_out_signal, { p with out_buffer := rest })
    else
      (none, p)

/-- LatencyIOProcessor._is_currently_idle: buffer empty or the oldest
buffered output time has passed. -/
def LatencyIOProcessor.is_currently_idle {O : Type} (p : LatencyIOProcessor O)
    (query_time_ms : ℚ) : Bool :=
  match p.out_buffer with
  | [] => true
  | (_, ot) :: _ => decide (ot ≤ query_time_ms)

/-- Helper: the processor with its missed-sample flag set to b. -/
def LatencyIOProcessor.setFlag {O : Type} (p : LatencyIOProcessor O) (b : Bool) :
    LatencyIOProcessor O :=
  { p with needs_off_schedule_sample := some b }

/-- LatencyIOProcessor.is_sampling_now.  "fixed": true iff the query time is a
multiple of the period up to numpy.isclose tolerance, state untouched.
"when idle": on-schedule queries sample iff idle (recording a deferral in the
missed-sample flag otherwise); off-schedule queries read the flag — raising
AttributeError if it was never written — and sample iff it is set and the
processor is idle.  A zero period raises ZeroDivisionError as the Python
modulo would. -/
def LatencyIOProcessor.is_sampling_now {O : Type} (p : LatencyIOProcessor O)
    (query_time_ms : ℚ) :
    Except PyError (Bool × LatencyIOProcessor O) :=
  if p.sampling = "fixed" then
    if p.sample_period_ms = 0 then .error .zeroDivisionError
    else .ok (npIsClose (pymod query_time_ms p.sample_period_ms) 0, p)
  else if p.sampling = "when idle" then
    if p.sample_period_ms = 0 then .error .zeroDivisionError
    else if pymod query_time_ms p.sample_period_ms = 0 then
      if p.is_currently_idle query_time_ms then
        .ok (true, p.setFlag false)
      else
        .ok (false, p.setFlag true)
    else
      match p.needs_off_schedule_sample with
      | none => .error .attributeError
      | some flag => .ok (flag && p.is_currently_idle query_time_ms, p)
  else
    .ok (false, p)

/-! ## Theorems for the claims -/

/-- C1: get_ctrl_signal returns the head entry's output and removes exactly
that head entry iff the buffer is non-empty and the query time has reached
the head entry's output time; in every other case it returns none and leaves
the processor unchanged, so no returned value has an output time beyond the
query time and no non-head entry is inspected or released. -/
theorem c1_get_ctrl_signal_head_release (O : Type) (p : LatencyIOProcessor O)
    (t : ℚ) :
    (p.out_buffer = [] → p.get_ctrl_signal t = (none, p)) ∧
    (∀ out ot rest, p.out_buffer = (out, ot) :: rest →
      (ot ≤ t → p.get_ctrl_signal t = (some out, { p with out_buffer := rest })) ∧
      (¬ ot ≤ t → p.get_ctrl_signal t = (none, p))) := by
  obtain ⟨buf, per, sam, pro, fl⟩ := p
  refine ⟨?_, ?_⟩
  · rintro rfl
    rfl
  · rintro out ot rest rfl
    constructor
    · intro hle
      simp [LatencyIOProcessor.get_ctrl_signal, hle]
    · intro hlt
      simp [LatencyIOProcessor.get_ctrl_signal, hlt]

/-- C1 witness: concrete releases and non-releases of a buffered entry. -/
theorem c1_witness :
    ((LatencyIOProcessor.mk ([] : List (ℚ × ℚ)) 1 "fixed" "parallel"
        none).get_ctrl_signal 3 =
      (none, LatencyIOProcessor.mk [] 1 "fixed" "parallel" none)) ∧
    ((LatencyIOProcessor.mk [((7:ℚ), 2)] 1 "fixed" "parallel"
        none).get_ctrl_signal 3 =
      (some 7, LatencyIOProcessor.mk [] 1 "fixed" "parallel" none)) ∧
    ((LatencyIOProcessor.mk [((7:ℚ), 2)] 1 "fixed" "parallel"
        none).get_ctrl_signal 1 =
      (none, LatencyIOProcessor.mk [((7:ℚ), 2)] 1 "fixed" "parallel" none)) := by
  refine ⟨(c1_get_ctrl_signal_head_release ℚ _ 3).1 rfl,
    ((c1_get_ctrl_signal_head_release ℚ _ 3).2 7 2 [] rfl).1 (by norm_num),
    ((c1_get_ctrl_signal_head_release ℚ _ 1).2 7 2 [] rfl).2 (by norm_num)⟩

/-- C3 counterexample: constructing a ProcessingBlock without a Delay does not
succeed — the constructor raises TypeError, so the Delay is not optional at
construction. -/
theorem c3_counterexample :
    ProcessingBlock.init ℚ ℚ none false = .error .typeError := rfl

/-- C3 amended: a ProcessingBlock cannot be constructed without a Delay (the
constructor raises TypeError when none is supplied); with a Delay attached,
construction succeeds and process returns out_time = t + delay.compute();
the delay-is-None branch of process (which would return out_time = t) is
unreachable through the constructor. -/
theorem c3_amended_delay_required (α β : Type) (sh : Bool) :
    (ProcessingBlock.init α β none sh = .error .typeError) ∧
    (∀ d, ProcessingBlock.init α β (some d) sh = .ok ⟨some d, sh, [], [], []⟩) ∧
    (∀ (b : ProcessingBlock α β) procImpl input tm d, b.delay = some d →
      (b.process procImpl input tm).2.1 = tm + d.compute) ∧
    (∀ (b : ProcessingBlock α β) procImpl input tm, b.delay = none →
      (b.process procImpl input tm).2.1 = tm) := by
  refine ⟨rfl, fun d => rfl, ?_, ?_⟩
  · intro b procImpl input tm d hd
    cases hb : b.save_history <;>
      simp [ProcessingBlock.process, hd, hb]
  · intro b procImpl input tm hd
    cases hb : b.save_history <;>
      simp [ProcessingBlock.process, hd, hb]

/-- C3 witness: a concrete block with a 5 ms delay yields out_time 8 from
in_time 3, and construction with that delay succeeds. -/
theorem c3_witness :
    (ProcessingBlock.init ℚ ℚ (some ⟨5⟩) false =
      .ok ⟨some ⟨5⟩, false, [], [], []⟩) ∧
    ((ProcessingBlock.mk (β := ℚ) (some ⟨5⟩) false [] [] []).process
        (fun (x : ℚ) => x) 7 3).2.1 = 3 + (5:ℚ) := by
  exact ⟨(c3_amended_delay_required ℚ ℚ false).2.1 ⟨5⟩,
    (c3_amended_delay_required ℚ ℚ false).2.2.1 _ _ 7 3 ⟨5⟩ rfl⟩

/-- C4 counterexample: a non-positive sample period is accepted silently —
construction with sample_period_ms = -1 succeeds and stores the period, so
construction does not fail fast on non-positive periods. -/
theorem c4_counterexample :
    LatencyIOProcessor.init ℚ (-1) "fixed" "parallel" =
      .ok ⟨[], -1, "fixed", "parallel", none⟩ := rfl

/-- C4 amended: construction validates only the two policy strings — a
sampling policy outside fixed / when idle, or a processing policy outside
parallel / serial, raises ValueError; sample_period_ms is stored without any
positivity check, so every (even non-positive) period is accepted, and every
valid policy configuration succeeds with the given period and policies
stored. -/
theorem c4_amended_validation (O : Type) (sp : ℚ) (sampling processing : String) :
    (sampling ≠ "fixed" → sampling ≠ "when idle" →
      LatencyIOProcessor.init O sp sampling processing = .error .valueError) ∧
    ((sampling = "fixed" ∨ sampling = "when idle") →
      processing ≠ "serial" → processing ≠ "parallel" →
      LatencyIOProcessor.init O sp sampling processing = .error .valueError) ∧
    ((sampling = "fixed" ∨ sampling = "when idle") →
      (processing = "serial" ∨ processing = "parallel") →
      LatencyIOProcessor.init O sp sampling processing =
        .ok ⟨[], sp, sampling, processing, none⟩) := by
  refine ⟨?_, ?_, ?_⟩
  · intro h1 h2
    simp [LatencyIOProcessor.init, h1, h2]
  · intro hs h1 h2
    rcases hs with hs | hs <;>
      simp [LatencyIOProcessor.init, hs, h1, h2]
  · intro hs hp
    rcases hs with hs | hs <;> rcases hp with hp | hp <;>
      simp [LatencyIOProcessor.init, hs, hp]

/-- C4 witness: a bad sampling string and a bad processing string raise
ValueError, while a valid configuration with a negative period succeeds. -/
theorem c4_witness :
    (LatencyIOProcessor.init ℚ 1 "sometimes" "parallel" = .error .valueError) ∧
    (LatencyIOProcessor.init ℚ 1 "fixed" "sequential" = .error .valueError) ∧
    (LatencyIOProcessor.init ℚ (-2) "when idle" "serial" =
      .ok ⟨[], -2, "when idle", "serial", none⟩) := by
  exact ⟨(c4_amended_validation ℚ 1 "sometimes" "parallel").1 (by simp) (by simp),
    (c4_amended_validation ℚ 1 "fixed" "sequential").2.1 (Or.inl rfl)
      (by simp) (by simp),
    (c4_amended_validation ℚ (-2) "when idle" "serial").2.2 (Or.inr rfl)
      (Or.inl rfl)⟩

/-- C5: under "serial" processing, a successful put_state appends an entry
whose output time is the previously buffered entry's output time plus this
sample's own delay (process out_time minus sample time), falling back to the
parallel value when the buffer is empty; consequently, when the sample's
delay is non-negative, appending preserves the pairwise non-decreasing order
of buffered output times. -/
theorem c5_serial_output_times (O σ : Type)
    (procFn : σ → ℚ → Except PyError (O × ℚ)) (p : LatencyIOProcessor O)
    (s : σ) (t : ℚ) (out : O) (ot : ℚ)
    (hser : p.processing = "serial") (hok : procFn s t = .ok (out, ot)) :
    (p.out_buffer = [] → (p.put_state procFn s t).2.out_buffer = [(out, ot)]) ∧
    (∀ pre last, p.out_buffer = pre ++ [last] →
      (p.put_state procFn s t).2.out_buffer =
        p.out_buffer ++ [(out, last.2 + ot - t)]) ∧
    (t ≤ ot → List.Pairwise (· ≤ ·) (p.out_buffer.map Prod.snd) →
      List.Pairwise (· ≤ ·) ((p.put_state procFn s t).2.out_buffer.map Prod.snd)) := by
  have hput : ∀ pre last, p.out_buffer = pre ++ [last] →
      (p.put_state procFn s t).2.out_buffer =
        p.out_buffer ++ [(out, last.2 + ot - t)] := by
    intro pre last hbuf
    simp [LatencyIOProcessor.put_state, hok, hser, hbuf,
      List.getLast?_concat]
  refine ⟨?_, hput, ?_⟩
  · intro hbuf
    simp [LatencyIOProcessor.put_state, hok, hser, hbuf]
  · intro hd hpw
    rcases List.eq_nil_or_concat p.out_buffer with hbuf | ⟨pre, last, hbuf⟩
    · simp [LatencyIOProcessor.put_state, hok, hser, hbuf]
    · rw [List.concat_eq_append] at hbuf
      rw [hput pre last hbuf, hbuf]
      rw [hbuf] at hpw
      rw [List.map_append, List.pairwise_append]
      refine ⟨hpw, by simp, ?_⟩
      intro a ha b hb
      rw [List.map_append] at ha hpw
      simp only [List.map_cons, List.map_nil, List.mem_singleton] at hb
      subst hb
      have hlast : a ≤ last.2 := by
        rw [List.pairwise_append] at hpw
        rcases List.mem_append.mp ha with ha2 | ha2
        · exact hpw.2.2 a ha2 last.2 (by simp)
        · simp only [List.map_cons, List.map_nil, List.mem_singleton] at ha2
          exact le_of_eq ha2
      have : last.2 ≤ last.2 + ot - t := by linarith
      exact le_trans hlast this

/-- C5 witness: with a one-entry buffer ending at time 5 and a sample at
time 3 whose process output time is 4 (delay 1), the serial entry is
appended at 5 + 1 = 6, and order is preserved; an empty buffer takes the
parallel value. -/
theorem c5_witness :
    ((LatencyIOProcessor.mk ([] : List (ℚ × ℚ)) 1 "fixed" "serial"
        none).put_state (fun (s tm : ℚ) => .ok (s, tm + 1)) 7 3).2.out_buffer =
      [((7:ℚ), 4)] ∧
    ((LatencyIOProcessor.mk [((9:ℚ), 5)] 1 "fixed" "serial"
        none).put_state (fun (s tm : ℚ) => .ok (s, tm + 1)) 7 3).2.out_buffer =
      [((9:ℚ), 5)] ++ [((7:ℚ), 5 + 4 - 3)] ∧
    List.Pairwise (· ≤ ·)
      ((((LatencyIOProcessor.mk [((9:ℚ), 5)] 1 "fixed" "serial"
        none).put_state (fun (s tm : ℚ) => .ok (s, tm + 1)) 7 3).2).out_buffer.map
          Prod.snd) := by
  refine ⟨(c5_serial_output_times ℚ ℚ _ _ 7 3 7 4 rfl (by norm_num)).1 rfl,
    (c5_serial_output_times ℚ ℚ _ _ 7 3 7 4 rfl (by norm_num)).2.1
      [] (9, 5) rfl,
    (c5_serial_output_times ℚ ℚ _ _ 7 3 7 4 rfl (by norm_num)).2.2
      (by norm_num) (by simp)⟩

/-- C6: under "parallel" processing, a successful put_state appends exactly
the (output, out_time) pair returned by the user's process function —
independent of the buffer contents — and clears the missed-sample flag; in
particular when out_time = sample_time + delay the buffered time is
sample_time + delay. -/
theorem c6_parallel_appends_process_result (O σ : Type)
    (procFn : σ → ℚ → Except PyError (O × ℚ)) (p : LatencyIOProcessor O)
    (s : σ) (t : ℚ) (out : O) (ot : ℚ)
    (hpar : p.processing = "parallel") (hok : procFn s t = .ok (out, ot)) :
    p.put_state procFn s t =
      (.ok (), { p with out_buffer := p.out_buffer ++ [(out, ot)],
                        needs_off_schedule_sample := some false }) ∧
    (∀ d, ot = t + d →
      (p.put_state procFn s t).2.out_buffer = p.out_buffer ++ [(out, t + d)]) := by
  have hmain : p.put_state procFn s t =
      (.ok (), { p with out_buffer := p.out_buffer ++ [(out, ot)],
                        needs_off_schedule_sample := some false }) := by
    simp [LatencyIOProcessor.put_state, hok, hpar]
  refine ⟨hmain, ?_⟩
  intro d hd
  rw [hmain]
  rw [hd]

/-- C6 witness: with a non-empty buffer whose pending entry has a later
output time, the parallel entry for sample time 3 with delay 1 is buffered
at exactly 4. -/
theorem c6_witness :
    (LatencyIOProcessor.mk [((9:ℚ), 50)] 1 "fixed" "parallel"
        none).put_state (fun (s tm : ℚ) => .ok (s, tm + 1)) 7 3 =
      (.ok (), LatencyIOProcessor.mk [((9:ℚ), 50), ((7:ℚ), 4)] 1 "fixed"
        "parallel" (some false)) ∧
    ((LatencyIOProcessor.mk [((9:ℚ), 50)] 1 "fixed" "parallel"
        none).put_state (fun (s tm : ℚ) => .ok (s, tm + 1)) 7 3).2.out_buffer =
      [((9:ℚ), 50)] ++ [((7:ℚ), 3 + 1)] := by
  exact ⟨(c6_parallel_appends_process_result ℚ ℚ _ _ 7 3 7 4 rfl
      (by norm_num)).1,
    (c6_parallel_appends_process_result ℚ ℚ _ _ 7 3 7 4 rfl
      (by norm_num)).2 1 (by norm_num)⟩

/-- C8: put_state is atomic — when the user process function raises, the
exception propagates and the processor (buffer and flag included) is exactly
the one from before the call; when it returns, exactly one complete entry is
appended to the buffer and the missed-sample flag is set to false. -/
theorem c8_put_state_atomic (O σ : Type)
    (procFn : σ → ℚ → Except PyError (O × ℚ)) (p : LatencyIOProcessor O)
    (s : σ) (t : ℚ) :
    (∀ e, procFn s t = .error e → p.put_state procFn s t = (.error e, p)) ∧
    (∀ out ot, procFn s t = .ok (out, ot) →
      ∃ eff, p.put_state procFn s t =
        (.ok (), { p with out_buffer := p.out_buffer ++ [(out, eff)],
                          needs_off_schedule_sample := some false })) := by
  constructor
  · intro e he
    simp [LatencyIOProcessor.put_state, he]
  · intro out ot hok
    refine ⟨if p.processing = "serial" then
        (match p.out_buffer.getLast? with
          | some prev => prev.2 + ot - t
          | none => ot)
      else ot, ?_⟩
    simp [LatencyIOProcessor.put_state, hok]

/-- C8 witness: a raising process call leaves a concrete processor unchanged
and returns the exception; a returning call appends one entry. -/
theorem c8_witness :
    ((LatencyIOProcessor.mk [((9:ℚ), 5)] 1 "fixed" "parallel"
        (some true)).put_state
        (fun (_ _ : ℚ) => .error .userError) 7 3 =
      (.error .userError,
        LatencyIOProcessor.mk [((9:ℚ), 5)] 1 "fixed" "parallel" (some true))) ∧
    (∃ eff, (LatencyIOProcessor.mk [((9:ℚ), 5)] 1 "fixed" "parallel"
        (some true)).put_state (fun (s tm : ℚ) => .ok (s, tm + 1)) 7 3 =
      (.ok (), LatencyIOProcessor.mk [((9:ℚ), 5), ((7:ℚ), eff)] 1 "fixed"
        "parallel" (some false))) := by
  exact ⟨(c8_put_state_atomic ℚ ℚ _ _ 7 3).1 .userError rfl,
    (c8_put_state_atomic ℚ ℚ _ _ 7 3).2 7 4 (by norm_num)⟩

/-- C7: under the "fixed" sampling policy (and a non-zero period, which the
Python modulo needs), is_sampling_now returns true exactly when the query
time modulo the period is within the numpy.isclose tolerance of zero, the
processor state is returned unchanged (no mutation of buffer or flag), and
the answer depends only on the query time and the period — not on the buffer
or the missed-sample flag. -/
theorem c7_fixed_sampling_pure (O : Type) (p : LatencyIOProcessor O) (t : ℚ)
    (hfix : p.sampling = "fixed") (hper : p.sample_period_ms ≠ 0) :
    p.is_sampling_now t =
      .ok (npIsClose (pymod t p.sample_period_ms) 0, p) ∧
    (npIsClose (pymod t p.sample_period_ms) 0 = true ↔
      |pymod t p.sample_period_ms| ≤ np_atol) ∧
    (∀ q : LatencyIOProcessor O, q.sampling = "fixed" →
      q.sample_period_ms = p.sample_period_ms →
      (q.is_sampling_now t).map Prod.fst = (p.is_sampling_now t).map Prod.fst) := by
  have heval : ∀ q : LatencyIOProcessor O, q.sampling = "fixed" →
      q.sample_period_ms ≠ 0 →
      q.is_sampling_now t = .ok (npIsClose (pymod t q.sample_period_ms) 0, q) := by
    intro q hq hq0
    simp [LatencyIOProcessor.is_sampling_now, hq, hq0]
  refine ⟨heval p hfix hper, ?_, ?_⟩
  · simp [npIsClose, np_rtol]
  · intro q hq hqper
    rw [heval p hfix hper, heval q hq (hqper ▸ hper), hqper]
    rfl

/-- C7 witness: with period 1, a fixed-policy processor with a non-trivial
buffer and flag samples at t = 3 and not at t = 7/2, and agrees with an
empty-buffer processor of the same period. -/
theorem c7_witness :
    ((LatencyIOProcessor.mk [((9:ℚ), 5)] 1 "fixed" "parallel"
        (some true)).is_sampling_now 3 =
      .ok (npIsClose (pymod 3 1) 0,
        LatencyIOProcessor.mk [((9:ℚ), 5)] 1 "fixed" "parallel" (some true))) ∧
    (npIsClose (pymod 3 1) 0 = true ↔ |pymod 3 1| ≤ np_atol) ∧
    (((LatencyIOProcessor.mk ([] : List (ℚ × ℚ)) 1 "fixed" "parallel"
        none).is_sampling_now 3).map Prod.fst =
      (((LatencyIOProcessor.mk [((9:ℚ), 5)] 1 "fixed" "parallel"
        (some true))).is_sampling_now 3).map Prod.fst) := by
  have hp := c7_fixed_sampling_pure ℚ
    (LatencyIOProcessor.mk [((9:ℚ), 5)] 1 "fixed" "parallel" (some true))
    3 rfl (by norm_num)
  exact ⟨hp.1, hp.2.1,
    hp.2.2 (LatencyIOProcessor.mk ([] : List (ℚ × ℚ)) 1 "fixed" "parallel" none)
      rfl rfl⟩

/-- Helper for C9: one history-recording process call keeps history recording
on and grows each of the three history lists by exactly one element. -/
theorem process_history_step (α β : Type) (procImpl : α → β)
    (b : ProcessingBlock α β) (input : α) (tm : ℚ)
    (hb : b.save_history = true) :
    (b.process procImpl input tm).2.2.save_history = true ∧
    (b.process procImpl input tm).2.2.t.length = b.t.length + 1 ∧
    (b.process procImpl input tm).2.2.out_t.length = b.out_t.length + 1 ∧
    (b.process procImpl input tm).2.2.values.length = b.values.length + 1 := by
  simp [ProcessingBlock.process, hb]

/-- Helper for C9: iterating process over a list of inputs preserves the
save_history switch and grows each of the three history lists by exactly one
element per processed input. -/
theorem processN_history_growth (α β : Type) (procImpl : α → β)
    (inputs : List (α × ℚ)) :
    ∀ b : ProcessingBlock α β, b.save_history = true →
      (processN procImpl b inputs).save_history = true ∧
      (processN procImpl b inputs).t.length = b.t.length + inputs.length ∧
      (processN procImpl b inputs).out_t.length = b.out_t.length + inputs.length ∧
      (processN procImpl b inputs).values.length = b.values.length + inputs.length := by
  induction inputs with
  | nil => intro b hb; simp [processN, hb]
  | cons hd tl ih =>
    intro b hb
    obtain ⟨i, tm⟩ := hd
    have hstep := process_history_step α β procImpl b i tm hb
    have hrec := ih ((b.process procImpl i tm).2.2) hstep.1
    have hdef : processN procImpl b ((i, tm) :: tl) =
        processN procImpl ((b.process procImpl i tm).2.2) tl := rfl
    rw [hdef]
    refine ⟨hrec.1, ?_, ?_, ?_⟩
    · rw [hrec.2.1, hstep.2.1, List.length_cons]; omega
    · rw [hrec.2.2.1, hstep.2.2.1, List.length_cons]; omega
    · rw [hrec.2.2.2, hstep.2.2.2, List.length_cons]; omega

/-- C9: a ProcessingBlock constructed with history recording enabled starts
with empty logs, each process call appends the input time, output time and
output value to the three parallel logs, and after running process over n
inputs all three logs have length exactly n. -/
theorem c9_history_lengths (α β : Type) (d : Delay) (procImpl : α → β)
    (inputs : List (α × ℚ)) (b0 : ProcessingBlock α β)
    (hinit : ProcessingBlock.init α β (some d) true = .ok b0) :
    ((processN procImpl b0 inputs).t.length = inputs.length ∧
     (processN procImpl b0 inputs).out_t.length = inputs.length ∧
     (processN procImpl b0 inputs).values.length = inputs.length) ∧
    (∀ (b : ProcessingBlock α β) input tm, b.save_history = true →
      (b.process procImpl input tm).2.2.t = b.t ++ [tm] ∧
      (b.process procImpl input tm).2.2.out_t =
        b.out_t ++ [(b.process procImpl input tm).2.1] ∧
      (b.process procImpl input tm).2.2.values =
        b.values ++ [(b.process procImpl input tm).1]) := by
  have hb0 : b0 = ⟨some d, true, [], [], []⟩ := by
    simpa [ProcessingBlock.init] using hinit.symm
  constructor
  · have h := processN_history_growth α β procImpl inputs b0 (by rw [hb0])
    rw [hb0] at h ⊢
    simpa using h.2
  · intro b input tm hb
    refine ⟨?_, ?_, ?_⟩ <;> simp [ProcessingBlock.process, hb]

/-- C9 witness: after processing two inputs from a freshly constructed
history-recording block, all three logs have length two; one call appends
the in time, out time and value. -/
theorem c9_witness :
    ((processN (fun (x : ℚ) => x)
        (ProcessingBlock.mk (β := ℚ) (some ⟨5⟩) true [] [] [])
        [(7, 0), (8, 1)]).t.length = 2 ∧
     (processN (fun (x : ℚ) => x)
        (ProcessingBlock.mk (β := ℚ) (some ⟨5⟩) true [] [] [])
        [(7, 0), (8, 1)]).out_t.length = 2 ∧
     (processN (fun (x : ℚ) => x)
        (ProcessingBlock.mk (β := ℚ) (some ⟨5⟩) true [] [] [])
        [(7, 0), (8, 1)]).values.length = 2) ∧
    ((ProcessingBlock.mk (β := ℚ) (some ⟨5⟩) true [] [] []).process
        (fun (x : ℚ) => x) 7 0).2.2.t = [] ++ [(0:ℚ)] := by
  refine ⟨(c9_history_lengths ℚ ℚ ⟨5⟩ (fun x => x) [(7, 0), (8, 1)]
      (ProcessingBlock.mk (some ⟨5⟩) true [] [] []) rfl).1, ?_⟩
  exact ((c9_history_lengths ℚ ℚ ⟨5⟩ (fun x => x) []
      (ProcessingBlock.mk (some ⟨5⟩) true [] [] []) rfl).2
    (ProcessingBlock.mk (some ⟨5⟩) true [] [] []) 7 0 rfl).1

/-- C10: a LatencyIOProcessor constructed with the "when idle" sampling
policy has no missed-sample flag attribute; if the first is_sampling_now
query after construction is off-schedule (query time not an exact multiple
of the non-zero period), the off-schedule branch reads the uninitialized
flag and the call raises AttributeError instead of returning a boolean. -/
theorem c10_uninitialized_flag_attribute_error (O : Type) (period : ℚ)
    (processing : String) (p : LatencyIOProcessor O) (t : ℚ)
    (hinit : LatencyIOProcessor.init O period "when idle" processing = .ok p)
    (hper : period ≠ 0) (hoff : pymod t period ≠ 0) :
    p.is_sampling_now t = .error .attributeError := by
  rw [LatencyIOProcessor.init, if_neg (by simp)] at hinit
  by_cases hc : processing ≠ "serial" ∧ processing ≠ "parallel"
  · rw [if_pos hc] at hinit
    exact absurd hinit (by simp)
  · rw [if_neg hc] at hinit
    injection hinit with hp
    subst hp
    simp [LatencyIOProcessor.is_sampling_now, hper, hoff]

/-- C10 witness: a freshly constructed "when idle" processor with period 1
raises AttributeError on the off-schedule first query at t = 1/2. -/
theorem c10_witness :
    (LatencyIOProcessor.mk ([] : List (ℚ × ℚ)) 1 "when idle" "parallel"
      none).is_sampling_now (1/2) = .error .attributeError := by
  exact c10_uninitialized_flag_attribute_error ℚ 1 "parallel" _ (1/2) rfl
    (by norm_num) (by norm_num [pymod])

/-- Helper: rewriting the missed-sample flag to the value it already holds
changes nothing. -/
theorem setFlag_self (O : Type) (p : LatencyIOProcessor O) (b : Bool)
    (h : p.needs_off_schedule_sample = some b) : p.setFlag b = p := by
  cases p
  simp_all [LatencyIOProcessor.setFlag]

/-- C2: under "when idle" sampling (non-zero period), a scheduled query that
finds the processor busy defers the sample, returning false and raising the
missed-sample flag; while the flag is raised, every busy query (on-schedule
or not) returns false and keeps the flag raised; the first query at which
the processor is idle returns true (on-schedule or not); taking the sample
(put_state) sets the flag to false; and with the flag false no off-schedule
query samples — so a deferred sample is caught up at the first idle query
and the flag is consumed exactly once, with no duplicate catch-up. -/
theorem c2_when_idle_deferral_catchup (O σ : Type)
    (procFn : σ → ℚ → Except PyError (O × ℚ)) :
    (∀ (p : LatencyIOProcessor O) (t : ℚ), p.sampling = "when idle" →
      p.sample_period_ms ≠ 0 → pymod t p.sample_period_ms = 0 →
      p.is_currently_idle t = false →
      p.is_sampling_now t = .ok (false, p.setFlag true)) ∧
    (∀ (p : LatencyIOProcessor O) (t : ℚ), p.sampling = "when idle" →
      p.sample_period_ms ≠ 0 → p.needs_off_schedule_sample = some true →
      p.is_currently_idle t = false →
      p.is_sampling_now t = .ok (false, p.setFlag true)) ∧
    (∀ (p : LatencyIOProcessor O) (t : ℚ), p.sampling = "when idle" →
      p.sample_period_ms ≠ 0 → p.needs_off_schedule_sample = some true →
      p.is_currently_idle t = true →
      ∃ q, p.is_sampling_now t = .ok (true, q)) ∧
    (∀ (p : LatencyIOProcessor O) (s : σ) (t : ℚ) (out : O) (ot : ℚ),
      procFn s t = .ok (out, ot) →
      (p.put_state procFn s t).2.needs_off_schedule_sample = some false) ∧
    (∀ (p : LatencyIOProcessor O) (t : ℚ), p.sampling = "when idle" →
      p.sample_period_ms ≠ 0 → p.needs_off_schedule_sample = some false →
      pymod t p.sample_period_ms ≠ 0 →
      p.is_sampling_now t = .ok (false, p)) := by
  refine ⟨?_, ?_, ?_, ?_, ?_⟩
  · intro p t hs hper hmod hidle
    simp [LatencyIOProcessor.is_sampling_now, hs, hper, hmod, hidle]
  · intro p t hs hper hflag hidle
    by_cases hmod : pymod t p.sample_period_ms = 0
    · simp [LatencyIOProcessor.is_sampling_now, hs, hper, hmod, hidle]
    · simp [LatencyIOProcessor.is_sampling_now, hs, hper, hmod, hflag, hidle,
        setFlag_self O p true hflag]
  · intro p t hs hper hflag hidle
    by_cases hmod : pymod t p.sample_period_ms = 0
    · exact ⟨p.setFlag false,
        by simp [LatencyIOProcessor.is_sampling_now, hs, hper, hmod, hidle]⟩
    · exact ⟨p,
        by simp [LatencyIOProcessor.is_sampling_now, hs, hper, hmod, hflag, hidle]⟩
  · intro p s t out ot hok
    simp [LatencyIOProcessor.put_state, hok]
  · intro p t hs hper hflag hmod
    simp [LatencyIOProcessor.is_sampling_now, hs, hper, hmod, hflag]

/-- C2 witness: period 1, one pending output at time 5.  The on-schedule
query at t = 2 is deferred (flag raised); the off-schedule busy query at
t = 5/2 returns false keeping the flag; the first idle query at t = 5
returns true; put_state clears the flag; and with the flag cleared the
off-schedule query at t = 11/2 returns false. -/
theorem c2_witness :
    ((LatencyIOProcessor.mk [((0:ℚ), 5)] 1 "when idle" "parallel"
        none).is_sampling_now 2 =
      .ok (false, (LatencyIOProcessor.mk [((0:ℚ), 5)] 1 "when idle" "parallel"
        none).setFlag true)) ∧
    ((LatencyIOProcessor.mk [((0:ℚ), 5)] 1 "when idle" "parallel"
        (some true)).is_sampling_now (5/2) =
      .ok (false, (LatencyIOProcessor.mk [((0:ℚ), 5)] 1 "when idle" "parallel"
        (some true)).setFlag true)) ∧
    (∃ q, (LatencyIOProcessor.mk [((0:ℚ), 5)] 1 "when idle" "parallel"
        (some true)).is_sampling_now 5 = .ok (true, q)) ∧
    (((LatencyIOProcessor.mk [((0:ℚ), 5)] 1 "when idle" "parallel"
        (some true)).put_state (fun (s tm : ℚ) => .ok (s, tm + 1))
        0 5).2.needs_off_schedule_sample = some false) ∧
    ((LatencyIOProcessor.mk ([] : List (ℚ × ℚ)) 1 "when idle" "parallel"
        (some false)).is_sampling_now (11/2) =
      .ok (false, LatencyIOProcessor.mk ([] : List (ℚ × ℚ)) 1 "when idle"
        "parallel" (some false))) := by
  have h := c2_when_idle_deferral_catchup ℚ ℚ (fun (s tm : ℚ) => .ok (s, tm + 1))
  exact ⟨h.1 _ 2 rfl (by norm_num) (by norm_num [pymod])
      (by norm_num [LatencyIOProcessor.is_currently_idle]),
    h.2.1 _ (5/2) rfl (by norm_num) rfl
      (by norm_num [LatencyIOProcessor.is_currently_idle]),
    h.2.2.1 _ 5 rfl (by norm_num) rfl
      (by norm_num [LatencyIOProcessor.is_currently_idle]),
    h.2.2.2.1 _ 0 5 0 6 (by norm_num),
    h.2.2.2.2 _ (11/2) rfl (by norm_num) rfl (by norm_num [pymod])⟩
